import Mathlib

/-!
Verification of the gaming-ai-assistant repository: the frontend watchlist
and chat components (embedded from the TypeScript sources) and the
belief/event/context backend core (absent from the visible code, modelled
from the specification).
-/

namespace GamingAssistant

/-- Game record, embedded from the `Game` interface in the frontend app
(src/unnamed/part_001). Prices are integers (RUB amounts); optional fields
are `Option`. -/
structure Game where
  id : String
  title : String
  source : String
  external_id : Option String
  current_price : Option Int
  original_price : Option Int
  currency : Option String
  discount_percent : Option Int
  is_tracked : Bool
deriving DecidableEq

/-- Modelled from the spec: a partial Game, the argument of the Change
Detector's `apply` (spec 4.2); every field other than the id is optional,
`none` meaning absent from the update. The Change Detector itself is not
in the visible sources. -/
structure GameUpdate where
  id : String
  title : Option String
  current_price : Option Int
  original_price : Option Int
  currency : Option String
  discount_percent : Option Int
  is_tracked : Option Bool
deriving DecidableEq

/-- Modelled from the spec: event type enum of a TrendEvent (spec 3). -/
inductive EventType
  | discount_started
  | price_drop
  | price_increase
  | discount_ended
  | back_in_stock
  | chat_insight
deriving DecidableEq

/-- Modelled from the spec: a TrendEvent (spec 3) with a generated id, the
optional associated game id, a type, human labels, and the append time
used by the deduplication cooldown (spec 4.2). -/
structure TrendEvent where
  eid : Nat
  game_id : Option String
  type : EventType
  title : String
  description : String
  time : Nat
deriving DecidableEq

/-- Modelled from the spec: the Event Ledger (spec 4.3), an append-only
sequence of TrendEvents, most-recent-last, with a counter generating ids. -/
structure Ledger where
  events : List TrendEvent
  nextId : Nat
deriving DecidableEq

/-- Modelled from the spec: `append` of the Event Ledger (spec 4.3) with
bounded retention: once the ledger exceeds the capacity `cap`, the oldest
events are evicted first. -/
def Ledger.appendEvent (cap : Nat) (l : Ledger) (e : TrendEvent) : Ledger :=
  let evs := l.events ++ [e]
  { events := evs.drop (evs.length - cap), nextId := l.nextId + 1 }

/-- Modelled from the spec: `list(limit)` of the Event Ledger (spec 4.3),
returning the most recent `limit` events, most-recent-last. -/
def Ledger.listEvents (limit : Nat) (l : Ledger) : List TrendEvent :=
  l.events.drop (l.events.length - limit)

/-- Modelled from the spec: detector configuration; the dedup cooldown
window (default 5 minutes) and the ledger capacity (spec 4.2, 4.3). -/
structure DetectorConfig where
  cooldownSeconds : Nat
  capacity : Nat
deriving DecidableEq

/-- Merge of one optional field: present in the update overwrites, absent
preserves the prior value (Belief Store `upsert`, spec 4.1). -/
def mergeOpt (u prior : Option α) : Option α :=
  match u with
  | some v => some v
  | none => prior

/-- Modelled from the spec: idempotent merge by id of an update into a
prior Game — fields present in the input overwrite, fields absent are
preserved (spec 4.1). -/
def mergeGame (g : Game) (u : GameUpdate) : Game :=
  { id := g.id
    title := u.title.getD g.title
    source := g.source
    external_id := g.external_id
    current_price := mergeOpt u.current_price g.current_price
    original_price := mergeOpt u.original_price g.original_price
    currency := mergeOpt u.currency g.currency
    discount_percent := mergeOpt u.discount_percent g.discount_percent
    is_tracked := u.is_tracked.getD g.is_tracked }

/-- Modelled from the spec: the Game created when an update arrives for a
previously-unseen id (spec 3, lifecycle). -/
def gameOfUpdate (u : GameUpdate) : Game :=
  { id := u.id
    title := u.title.getD u.id
    source := "other"
    external_id := none
    current_price := u.current_price
    original_price := u.original_price
    currency := u.currency
    discount_percent := u.discount_percent
    is_tracked := u.is_tracked.getD true }

/-- Modelled from the spec: the five Change Detector rules of spec 4.2,
as a predicate on the prior Game (if any), the incoming update, and the
candidate event type. `chat_insight` is never produced by these rules. -/
def fires (prior : Option Game) (u : GameUpdate) : EventType → Bool
  | .discount_started =>
      (prior.bind Game.current_price).isNone && u.current_price.isSome &&
        decide (0 < (mergeOpt u.discount_percent (prior.bind Game.discount_percent)).getD 0)
  | .price_drop =>
      match prior.bind Game.current_price, u.current_price with
      | some p, some c => decide (c < p ∧ p ≤ 100 * (p - c))
      | _, _ => false
  | .price_increase =>
      match prior.bind Game.current_price, u.current_price with
      | some p, some c => decide (p < c ∧ p ≤ 100 * (c - p))
      | _, _ => false
  | .discount_ended =>
      match prior with
      | none => false
      | some g =>
          decide (0 < g.discount_percent.getD 0) &&
            (decide (u.discount_percent = some 0) || decide (u.discount_percent = none))
  | .back_in_stock =>
      match prior with
      | none => false
      | some g => g.is_tracked && g.current_price.isNone && u.current_price.isSome
  | .chat_insight => false

/-- Modelled from the spec: the tie-break priority order of spec 4.2. -/
def priorityOrder : List EventType :=
  [.discount_started, .price_drop, .price_increase, .discount_ended, .back_in_stock]

/-- Numeric rank of an event type in the priority order (lower = higher
priority). -/
def priorityRank : EventType → Nat
  | .discount_started => 0
  | .price_drop => 1
  | .price_increase => 2
  | .discount_ended => 3
  | .back_in_stock => 4
  | .chat_insight => 5

/-- Modelled from the spec: the Change Detector's event decision — the
highest-priority rule that fires, if any (spec 4.2, tie-break). -/
def detectEvent (prior : Option Game) (u : GameUpdate) : Option EventType :=
  (priorityOrder.filter (fires prior u)).head?

/-- Modelled from the spec: deduplication (spec 4.2) — an event is
suppressed if an event of the same type for the same game id was appended
within the cooldown window. -/
def suppressed (cooldown now : Nat) (l : Ledger) (ty : EventType) (gid : Option String) : Bool :=
  l.events.any fun e =>
    decide (e.type = ty) && decide (e.game_id = gid) && decide (now ≤ e.time + cooldown)

/-- Short human label of an event type, for the TrendEvent title. -/
def eventLabel : EventType → String
  | .discount_started => "discount started"
  | .price_drop => "price drop"
  | .price_increase => "price increase"
  | .discount_ended => "discount ended"
  | .back_in_stock => "back in stock"
  | .chat_insight => "chat insight"

/-- Modelled from the spec: the shared mutable state of the core — the
Belief Store (ordered tracked-game list, spec 4.1) and the Event Ledger. -/
structure AgentState where
  store : List Game
  ledger : Ledger
deriving DecidableEq

/-- Belief Store `get` by id: first Game whose id matches (spec 4.1). -/
def lookupGame (store : List Game) (id : String) : Option Game :=
  store.find? fun g => g.id == id

/-- Modelled from the spec: Belief Store `upsert` (spec 4.1) — replace the
record with the same id, or append at the end (insertion order). -/
def upsertGame (store : List Game) (g : Game) : List Game :=
  match store with
  | [] => [g]
  | g0 :: rest => if g0.id == g.id then g :: rest else g0 :: upsertGame rest g

/-- The merged Game an update produces: merge into the prior record if
one exists, else a fresh Game (spec 3, lifecycle). -/
def mergedOf (prior : Option Game) (u : GameUpdate) : Game :=
  match prior with
  | some g => mergeGame g u
  | none => gameOfUpdate u

/-- Modelled from the spec: the Change Detector's
`apply(update) -> (Game, optional TrendEvent)` (spec 4.2): fetch the
prior Game, merge, run the rules in priority order, suppress within the
dedup cooldown, and atomically update the Belief Store and (on a
non-suppressed fire) append to the Event Ledger. -/
def applyUpdate (cfg : DetectorConfig) (now : Nat) (u : GameUpdate) (s : AgentState) :
    AgentState × Option TrendEvent :=
  let prior := lookupGame s.store u.id
  let merged := mergedOf prior u
  let newStore := upsertGame s.store merged
  match detectEvent prior u with
  | none => ({ store := newStore, ledger := s.ledger }, none)
  | some ty =>
      if suppressed cfg.cooldownSeconds now s.ledger ty (some u.id) then
        ({ store := newStore, ledger := s.ledger }, none)
      else
        let e : TrendEvent :=
          { eid := s.ledger.nextId, game_id := some u.id, type := ty,
            title := eventLabel ty, description := eventLabel ty, time := now }
        ({ store := newStore, ledger := s.ledger.appendEvent cfg.capacity e }, some e)

/-- Modelled from the spec: a conversation turn (spec 3). -/
structure ConversationTurn where
  role : String
  content : String
deriving DecidableEq

/-- Modelled from the spec: the bounded context payload `buildContext`
produces for the language-model collaborator (spec 4.4): tracked-game
summary (title, price, discount), the most recent 10 ledger events, the
history and the user message. -/
structure ContextPayload where
  trackedSummary : List (String × Option Int × Option Int)
  recentEvents : List TrendEvent
  history : List ConversationTurn
  userMessage : String
deriving DecidableEq

/-- Modelled from the spec: the Context Assembler's `buildContext`
(spec 4.4) — a pure selection over the current state, mutating nothing. -/
def buildContext (s : AgentState) (history : List ConversationTurn) (msg : String) :
    ContextPayload :=
  { trackedSummary :=
      (s.store.filter fun g => g.is_tracked).map fun g =>
        (g.title, g.current_price, g.discount_percent)
    recentEvents := s.ledger.listEvents 10
    history := history
    userMessage := msg }

/-- Modelled from the spec: one chat turn (spec 4.4): build the context,
call the language-model collaborator `lm` (`none` = failure or timeout);
on failure return the state untouched with no reply; on success feed the
extracted facts through the Change Detector's apply. -/
def chatTurn (lm : ContextPayload → Option String)
    (extract : String → ContextPayload → List GameUpdate)
    (cfg : DetectorConfig) (now : Nat) (s : AgentState)
    (history : List ConversationTurn) (msg : String) : AgentState × Option String :=
  let ctx := buildContext s history msg
  match lm ctx with
  | none => (s, none)
  | some reply =>
      let facts := extract reply ctx
      (facts.foldl (fun st u => (applyUpdate cfg now u st).1) s, some reply)

/-- Modelled from the spec: the Watchlist Coordinator's tracked-flag
clearing step of `replaceAll` (spec 4.5): ids present in the store but
absent from the input have their tracked flag cleared, not hard-deleted. -/
def clearAbsent (input : List GameUpdate) (store : List Game) : List Game :=
  store.map fun g =>
    if input.any (fun u => u.id == g.id) then g else { g with is_tracked := false }

/-- Modelled from the spec: the Watchlist Coordinator's `replaceAll`
(spec 4.5): clear the tracked flag of store games absent from the input,
then push every input through the Change Detector's `apply`. -/
def replaceAll (cfg : DetectorConfig) (now : Nat) (input : List GameUpdate)
    (s : AgentState) : AgentState :=
  input.foldl (fun st u => (applyUpdate cfg now u st).1)
    { store := clearAbsent input s.store, ledger := s.ledger }

/-! ## Frontend embeddings (from src/) -/

/-- JavaScript `String.prototype.trim`: strip whitespace from both ends. -/
def jsTrim (s : String) : String :=
  String.mk (((s.data.dropWhile Char.isWhitespace).reverse.dropWhile Char.isWhitespace).reverse)

/-- JavaScript `String.prototype.toLowerCase` on the character list. -/
def lowerStr (s : String) : String :=
  String.mk (s.data.map Char.toLower)

/-- One step of the id normalization of `handleAdd` in the WatchlistPanel
(src/unnamed/part_002): the JavaScript regex replacement of every run of
whitespace by a single hyphen. The flag records whether we are inside a
whitespace run already replaced. -/
def hyphenRuns : Bool → List Char → List Char
  | _, [] => []
  | inRun, c :: cs =>
      if c.isWhitespace then
        if inRun then hyphenRuns true cs else '-' :: hyphenRuns true cs
      else c :: hyphenRuns false cs

/-- The id computation of `handleAdd` (src/unnamed/part_002):
`title.toLowerCase().replace(/\s+/g, "-")`. -/
def normalizeId (title : String) : String :=
  String.mk (hyphenRuns false (lowerStr title).data)

/-- A Steam search result as used by `handleAdd` (src/unnamed/part_002):
`searchSteamGame` returns the first result (with `appid` and `name`) or
`null` on failure or empty results, never an error. -/
structure SteamResult where
  appid : Option Nat
  name : String
deriving DecidableEq

/-- The Game literal built by `handleAdd` (src/unnamed/part_002):
`title: steamGame?.name || title.trim()`, `source: "steam"`,
`external_id: steamGame?.appid?.toString() || null`,
`current_price: price ? Number(price) : undefined`, `currency: "RUB"`,
`is_tracked: true`. `parseNum` stands for JavaScript `Number` on the
(non-empty) price string. -/
def mkNewGame (title price : String) (steam : Option SteamResult)
    (parseNum : String → Int) : Game :=
  { id := normalizeId title
    title := match steam with
      | some sg => if sg.name == "" then jsTrim title else sg.name
      | none => jsTrim title
    source := "steam"
    external_id := steam.bind fun sg => sg.appid.map fun n => toString n
    current_price := if price == "" then none else some (parseNum price)
    original_price := none
    currency := some "RUB"
    discount_percent := none
    is_tracked := true }

/-- `handleAdd` of the WatchlistPanel (src/unnamed/part_002): no-op when
the trimmed title is empty, otherwise append the new Game to the list
(`onChange([...games, newGame])`). -/
def handleAdd (title price : String) (steam : Option SteamResult)
    (parseNum : String → Int) (games : List Game) : List Game :=
  if jsTrim title == "" then games
  else games ++ [mkNewGame title price steam parseNum]

/-- A chat message of the ChatPanel (src/frontend/src/components/ChatPanel.tsx). -/
structure ChatMessage where
  role : String
  content : String
deriving DecidableEq

/-- The component state of the ChatPanel that `handleSend` touches:
`messages`, `input`, `sending`. -/
structure ChatState where
  messages : List ChatMessage
  input : String
  sending : Bool
deriving DecidableEq

/-- The backend response of `POST /chat` as consumed by `handleSend`. -/
structure ChatResponse where
  reply : String
  events : List TrendEvent
deriving DecidableEq

/-- The Russian error bubble appended by `handleSend`'s catch branch. -/
def chatErrorReply : String :=
  "Произошла ошибка при обращении к backend. Проверь, что сервер запущен."

/-- `handleSend` of the ChatPanel (src/frontend/src/components/ChatPanel.tsx):
return unchanged (and perform no request, the Bool) when the trimmed input
is empty or a send is in flight; otherwise append the user message, clear
the input, post history (the messages before this send) plus the message,
and append either the reply or the error bubble. `post` models the axios
call, `none` = failure. -/
def handleSend (post : List ChatMessage → String → Option ChatResponse)
    (st : ChatState) : ChatState × Bool :=
  let text := jsTrim st.input
  if text == "" || st.sending then (st, false)
  else
    let newMessages := st.messages ++ [{ role := "user", content := text }]
    match post st.messages text with
    | some res =>
        ({ messages := newMessages ++ [{ role := "assistant", content := res.reply }],
           input := "", sending := false }, true)
    | none =>
        ({ messages := newMessages ++ [{ role := "assistant", content := chatErrorReply }],
           input := "", sending := false }, true)

/-! ## Concrete instances used by witnesses and counterexamples -/

/-- A price-only update, as a periodic price refresh would report. -/
def priceOnlyUpdate (id : String) (c : Int) : GameUpdate :=
  { id := id, title := none, current_price := some c, original_price := none,
    currency := none, discount_percent := none, is_tracked := none }

/-- Default detector configuration: 5-minute cooldown, capacity a few
thousand (spec 4.2, 4.3). -/
def cfgD : DetectorConfig := { cooldownSeconds := 300, capacity := 3000 }

/-- A tracked game at price 1000 with a 10 percent discount on record. -/
def gX : Game :=
  { id := "x", title := "x", source := "steam", external_id := none,
    current_price := some 1000, original_price := none, currency := none,
    discount_percent := some 10, is_tracked := true }

/-- A refresh update for gX reporting price 980 and omitting the
discount field. -/
def uX : GameUpdate := priceOnlyUpdate "x" 980

/-- A state holding only gX, with an empty ledger. -/
def sX : AgentState := { store := [gX], ledger := { events := [], nextId := 0 } }

/-- The event the first apply of uX on sX emits: a price_drop for "x"
at time 0, with the ledger's first generated id. -/
def eX : TrendEvent :=
  { eid := 0, game_id := some "x", type := .price_drop,
    title := eventLabel .price_drop, description := eventLabel .price_drop, time := 0 }

/-- A tracked game with no known price and no discount. -/
def gW : Game :=
  { id := "w", title := "w", source := "steam", external_id := none,
    current_price := none, original_price := none, currency := none,
    discount_percent := none, is_tracked := true }

/-- An update for gW introducing a price of 500 with a 20 percent
discount: both the discount-started and the back-in-stock rules fire. -/
def uW : GameUpdate :=
  { id := "w", title := none, current_price := some 500, original_price := none,
    currency := none, discount_percent := some 20, is_tracked := none }

/-- A tracked game priced at 1000 with no discount. -/
def gP : Game :=
  { id := "p", title := "p", source := "steam", external_id := none,
    current_price := some 1000, original_price := none, currency := none,
    discount_percent := none, is_tracked := true }

/-- A state holding only gP, with an empty ledger. -/
def sP : AgentState := { store := [gP], ledger := { events := [], nextId := 0 } }

/-! ## Helper lemmas -/

theorem appendEvent_events (cap : Nat) (l : Ledger) (e : TrendEvent) :
    (Ledger.appendEvent cap l e).events =
      (l.events ++ [e]).drop (l.events.length + 1 - cap) := by
  simp [Ledger.appendEvent]

theorem appendEvent_length (cap : Nat) (l : Ledger) (e : TrendEvent) :
    (Ledger.appendEvent cap l e).events.length = min (l.events.length + 1) cap := by
  simp [Ledger.appendEvent]
  omega

theorem mem_appendEvent (cap : Nat) (l : Ledger) (e : TrendEvent) (hcap : 1 ≤ cap) :
    e ∈ (Ledger.appendEvent cap l e).events := by
  rw [appendEvent_events, List.drop_append_of_le_length (by omega)]
  simp

/-! ## C9 -/

/-- C9: for every chat input that trims to the empty string, and whenever
a previous send is still in flight, handleSend performs no backend
request (the returned Bool is false) and leaves the component state —
message history and input field — unchanged. -/
theorem handleSend_noop (post : List ChatMessage → String → Option ChatResponse)
    (st : ChatState) (h : (jsTrim st.input == "") = true ∨ st.sending = true) :
    handleSend post st = (st, false) := by
  unfold handleSend
  rcases h with h | h <;> simp [h]

/-- Witness for C9 at a whitespace-only input. -/
theorem handleSend_noop_witness :
    handleSend (fun _ _ => none)
        { messages := [], input := "  ", sending := false } =
      ({ messages := [], input := "  ", sending := false }, false) :=
  handleSend_noop (fun _ _ => none) _ (Or.inl (by decide))

/-! ## C10 -/

/-- C10: every Game created through the watchlist add path has source
"steam", currency "RUB" and is_tracked true, whether or not the
storefront lookup succeeded, and its current_price is absent (not 0)
whenever the price field is left empty. -/
theorem handleAdd_fixedFields (title price : String) (steam : Option SteamResult)
    (parseNum : String → Int) (games : List Game)
    (h : (jsTrim title == "") = false) :
    handleAdd title price steam parseNum games
        = games ++ [mkNewGame title price steam parseNum] ∧
      (mkNewGame title price steam parseNum).source = "steam" ∧
      (mkNewGame title price steam parseNum).currency = some "RUB" ∧
      (mkNewGame title price steam parseNum).is_tracked = true ∧
      (price = "" → (mkNewGame title price steam parseNum).current_price = none) := by
  refine ⟨by simp [handleAdd, h], rfl, rfl, rfl, fun hp => ?_⟩
  simp [mkNewGame, hp]

/-- Witness for C10: adding "Dota 2" with an empty price field and a
failed lookup. -/
theorem handleAdd_fixedFields_witness :
    handleAdd "Dota 2" "" none (fun _ => 0) []
        = [] ++ [mkNewGame "Dota 2" "" none (fun _ => 0)] ∧
      (mkNewGame "Dota 2" "" none (fun _ => 0)).source = "steam" ∧
      (mkNewGame "Dota 2" "" none (fun _ => 0)).currency = some "RUB" ∧
      (mkNewGame "Dota 2" "" none (fun _ => 0)).is_tracked = true ∧
      (("" : String) = "" → (mkNewGame "Dota 2" "" none (fun _ => 0)).current_price = none) :=
  handleAdd_fixedFields "Dota 2" "" none (fun _ => 0) [] (by decide)

/-! ## C7 -/

/-- C7: when the storefront lookup fails (error or empty result,
modelled as `none`), handleAdd still appends a Game: the user-typed
title is kept (trimmed) and external_id is null; no error is surfaced. -/
theorem handleAdd_lookupFailure (title price : String) (parseNum : String → Int)
    (games : List Game) (h : (jsTrim title == "") = false) :
    handleAdd title price none parseNum games
        = games ++ [mkNewGame title price none parseNum] ∧
      (mkNewGame title price none parseNum).title = jsTrim title ∧
      (mkNewGame title price none parseNum).external_id = none := by
  exact ⟨by simp [handleAdd, h], rfl, rfl⟩

/-- Witness for C7: adding " Hades " after a failed lookup keeps the
trimmed title and a null external id. -/
theorem handleAdd_lookupFailure_witness :
    handleAdd " Hades " "100" none (fun _ => 100) []
        = [] ++ [mkNewGame " Hades " "100" none (fun _ => 100)] ∧
      (mkNewGame " Hades " "100" none (fun _ => 100)).title = jsTrim " Hades " ∧
      (mkNewGame " Hades " "100" none (fun _ => 100)).external_id = none :=
  handleAdd_lookupFailure " Hades " "100" (fun _ => 100) [] (by decide)

/-! ## C6 -/

theorem hyphenRuns_absorb (run rest : List Char)
    (hws : ∀ c ∈ run, c.isWhitespace = true) :
    hyphenRuns true (run ++ rest) = hyphenRuns true rest := by
  induction run with
  | nil => rfl
  | cons c cs ih =>
      have hc : c.isWhitespace = true := hws c (by simp)
      simp only [List.cons_append, hyphenRuns, hc, if_true]
      exact ih fun x hx => hws x (by simp [hx])

theorem hyphenRuns_wsRun (run rest : List Char) (hne : run ≠ [])
    (hws : ∀ c ∈ run, c.isWhitespace = true) :
    hyphenRuns false (run ++ rest) = '-' :: hyphenRuns true rest := by
  cases run with
  | nil => exact absurd rfl hne
  | cons c cs =>
      have hc : c.isWhitespace = true := hws c (by simp)
      have habs := hyphenRuns_absorb cs rest fun x hx => hws x (by simp [hx])
      simp [hyphenRuns, hc, habs]

/-- C6: the watchlist add path derives the new Game's id from the typed
title by normalization: the title is lowercased and every maximal run of
whitespace becomes one hyphen (`title.toLowerCase().replace(/\s+/g, "-")`),
and equal titles always yield equal ids. -/
theorem handleAdd_id_normalization :
    (∀ title price steam parseNum, (mkNewGame title price steam parseNum).id = normalizeId title) ∧
    (∀ t1 t2 : String, t1 = t2 → normalizeId t1 = normalizeId t2) ∧
    (∀ title : String, normalizeId title = String.mk (hyphenRuns false (lowerStr title).data)) ∧
    (∀ run rest : List Char, run ≠ [] → (∀ c ∈ run, c.isWhitespace = true) →
      hyphenRuns false (run ++ rest) = '-' :: hyphenRuns true rest) ∧
    (∀ (b : Bool) (c : Char) (cs : List Char), c.isWhitespace = false →
      hyphenRuns b (c :: cs) = c :: hyphenRuns false cs) := by
  refine ⟨fun _ _ _ _ => rfl, fun t1 t2 h => by rw [h], fun _ => rfl,
    hyphenRuns_wsRun, fun b c cs hc => ?_⟩
  simp [hyphenRuns, hc]

/-- Witness for C6: a concrete title with an inner double space, showing
the whole run collapses to one hyphen and the id is the normalization. -/
theorem handleAdd_id_normalization_witness :
    (mkNewGame "Elden  Ring" "" none (fun _ => 0)).id = normalizeId "Elden  Ring" ∧
    hyphenRuns false ([' ', ' '] ++ ['r']) = '-' :: hyphenRuns true ['r'] ∧
    normalizeId "Elden  Ring" = "elden-ring" :=
  ⟨handleAdd_id_normalization.1 "Elden  Ring" "" none (fun _ => 0),
    handleAdd_id_normalization.2.2.2.1 [' ', ' '] ['r'] (by decide) (by decide),
    by decide⟩

/-! ## C5 -/

/-- C5: buildContext is a pure selection — the chat turn built on it
mutates nothing until the language-model call has succeeded — so a chat
turn whose language-model call fails leaves the Belief Store and the
Event Ledger exactly equal to their contents before the call. -/
theorem chatTurn_failure_frame (lm : ContextPayload → Option String)
    (extract : String → ContextPayload → List GameUpdate)
    (cfg : DetectorConfig) (now : Nat) (s : AgentState)
    (history : List ConversationTurn) (msg : String)
    (h : lm (buildContext s history msg) = none) :
    (chatTurn lm extract cfg now s history msg).1.store = s.store ∧
      (chatTurn lm extract cfg now s history msg).1.ledger = s.ledger ∧
      chatTurn lm extract cfg now s history msg = (s, none) := by
  refine ⟨?_, ?_, ?_⟩ <;> simp [chatTurn, h]

/-- Witness for C5: a failing language model on the state holding gP. -/
theorem chatTurn_failure_frame_witness :
    (chatTurn (fun _ => none) (fun _ _ => []) cfgD 0 sP [] "hi").1.store = sP.store ∧
      (chatTurn (fun _ => none) (fun _ _ => []) cfgD 0 sP [] "hi").1.ledger = sP.ledger ∧
      chatTurn (fun _ => none) (fun _ _ => []) cfgD 0 sP [] "hi" = (sP, none) :=
  chatTurn_failure_frame (fun _ => none) (fun _ _ => []) cfgD 0 sP [] "hi" rfl

/-! ## C4 -/

theorem appendEvent_three_of_ge_two (l : Ledger) (e : TrendEvent)
    (h : 2 ≤ l.events.length) :
    (Ledger.appendEvent 3 l e).events = l.events.drop (l.events.length - 2) ++ [e] := by
  rw [appendEvent_events, List.drop_append_of_le_length (by omega)]
  congr 2

/-- C4: with ledger capacity 3, after any 5 sequential appends the ledger
retains exactly the 3 most recently appended events, oldest evicted
first, and list(limit=10) returns them most-recent-last. -/
theorem ledger_window_capacity_three (l : Ledger) (e1 e2 e3 e4 e5 : TrendEvent) :
    Ledger.listEvents 10
        (Ledger.appendEvent 3 (Ledger.appendEvent 3 (Ledger.appendEvent 3
          (Ledger.appendEvent 3 (Ledger.appendEvent 3 l e1) e2) e3) e4) e5)
      = [e3, e4, e5] := by
  set l1 := Ledger.appendEvent 3 l e1 with hl1
  set l2 := Ledger.appendEvent 3 l1 e2 with hl2
  set l3 := Ledger.appendEvent 3 l2 e3 with hl3
  set l4 := Ledger.appendEvent 3 l3 e4 with hl4
  have a1 : l1.events.length = min (l.events.length + 1) 3 := appendEvent_length 3 l e1
  have a2 : l2.events.length = min (l1.events.length + 1) 3 := appendEvent_length 3 l1 e2
  have hlen2 : 2 ≤ l2.events.length := by omega
  have h3 : l3.events = l2.events.drop (l2.events.length - 2) ++ [e3] :=
    appendEvent_three_of_ge_two l2 e3 hlen2
  have hdl : (l2.events.drop (l2.events.length - 2)).length = 2 := by
    rw [List.length_drop]; omega
  obtain ⟨x, y, hxy⟩ := List.length_eq_two.mp hdl
  have h3' : l3.events = [x, y, e3] := by rw [h3, hxy]; rfl
  have h4 : l4.events = [y, e3, e4] := by
    rw [hl4, appendEvent_events, h3']; rfl
  have h5 : (Ledger.appendEvent 3 l4 e5).events = [e3, e4, e5] := by
    rw [appendEvent_events, h4]; rfl
  simp [Ledger.listEvents, h5]

/-! ## C3 -/

/-- C3: on a game whose prior current_price is 1000 (and no discount on
record), an update to 980 — a 2 percent decrease, at least the default 1
percent threshold — emits exactly one price_drop event carrying the
game's id, while an update to 996 — a 0.4 percent decrease, below the
threshold — emits no event at all. -/
theorem priceDrop_threshold (cfg : DetectorConfig) (now : Nat) (g : Game)
    (s : AgentState)
    (hp : g.current_price = some 1000) (hd : g.discount_percent = none)
    (hs : lookupGame s.store g.id = some g)
    (hsup : suppressed cfg.cooldownSeconds now s.ledger .price_drop (some g.id) = false) :
    detectEvent (some g) (priceOnlyUpdate g.id 980) = some .price_drop ∧
      (∃ e, (applyUpdate cfg now (priceOnlyUpdate g.id 980) s).2 = some e ∧
        e.type = .price_drop ∧ e.game_id = some g.id) ∧
      detectEvent (some g) (priceOnlyUpdate g.id 996) = none ∧
      (applyUpdate cfg now (priceOnlyUpdate g.id 996) s).2 = none ∧
      (applyUpdate cfg now (priceOnlyUpdate g.id 996) s).1.ledger = s.ledger := by
  have hdet980 : detectEvent (some g) (priceOnlyUpdate g.id 980) = some .price_drop := by
    simp [detectEvent, priorityOrder, List.filter, fires, priceOnlyUpdate, hp, hd, mergeOpt]
  have hdet996 : detectEvent (some g) (priceOnlyUpdate g.id 996) = none := by
    simp [detectEvent, priorityOrder, List.filter, fires, priceOnlyUpdate, hp, hd, mergeOpt]
  have hid980 : (priceOnlyUpdate g.id 980).id = g.id := rfl
  have hid996 : (priceOnlyUpdate g.id 996).id = g.id := rfl
  refine ⟨hdet980,
    ⟨{ eid := s.ledger.nextId, game_id := some g.id, type := .price_drop,
       title := eventLabel .price_drop, description := eventLabel .price_drop,
       time := now }, ?_, rfl, rfl⟩, hdet996, ?_, ?_⟩
  · simp only [applyUpdate, hid980, hs, hdet980, hsup]
    simp
  · simp only [applyUpdate, hid996, hs, hdet996]
  · simp only [applyUpdate, hid996, hs, hdet996]

/-- Witness for C3 at the concrete one-game state sP. -/
theorem priceDrop_threshold_witness :
    detectEvent (some gP) (priceOnlyUpdate gP.id 980) = some .price_drop ∧
      (∃ e, (applyUpdate cfgD 0 (priceOnlyUpdate gP.id 980) sP).2 = some e ∧
        e.type = .price_drop ∧ e.game_id = some gP.id) ∧
      detectEvent (some gP) (priceOnlyUpdate gP.id 996) = none ∧
      (applyUpdate cfgD 0 (priceOnlyUpdate gP.id 996) sP).2 = none ∧
      (applyUpdate cfgD 0 (priceOnlyUpdate gP.id 996) sP).1.ledger = sP.ledger :=
  priceDrop_threshold cfgD 0 gP sP (by decide) (by decide) (by decide) (by decide)

/-! ## Detector helper lemmas -/

theorem detectEvent_spec (prior : Option Game) (u : GameUpdate) (t : EventType)
    (ht : fires prior u t = true) :
    ∃ t0, detectEvent prior u = some t0 ∧ fires prior u t0 = true ∧
      ∀ t', fires prior u t' = true → priorityRank t0 ≤ priorityRank t' := by
  by_cases h0 : fires prior u .discount_started = true
  · refine ⟨.discount_started, ?_, h0, fun t' _ => ?_⟩
    · simp [detectEvent, priorityOrder, List.filter, h0]
    · cases t' <;> simp [priorityRank]
  rw [Bool.not_eq_true] at h0
  by_cases h1 : fires prior u .price_drop = true
  · refine ⟨.price_drop, ?_, h1, fun t' ht' => ?_⟩
    · simp [detectEvent, priorityOrder, List.filter, h0, h1]
    · cases t' <;> simp_all [priorityRank]
  rw [Bool.not_eq_true] at h1
  by_cases h2 : fires prior u .price_increase = true
  · refine ⟨.price_increase, ?_, h2, fun t' ht' => ?_⟩
    · simp [detectEvent, priorityOrder, List.filter, h0, h1, h2]
    · cases t' <;> simp_all [priorityRank]
  rw [Bool.not_eq_true] at h2
  by_cases h3 : fires prior u .discount_ended = true
  · refine ⟨.discount_ended, ?_, h3, fun t' ht' => ?_⟩
    · simp [detectEvent, priorityOrder, List.filter, h0, h1, h2, h3]
    · cases t' <;> simp_all [priorityRank]
  rw [Bool.not_eq_true] at h3
  by_cases h4 : fires prior u .back_in_stock = true
  · refine ⟨.back_in_stock, ?_, h4, fun t' ht' => ?_⟩
    · simp [detectEvent, priorityOrder, List.filter, h0, h1, h2, h3, h4]
    · cases t' <;> simp_all [priorityRank]
  rw [Bool.not_eq_true] at h4
  exfalso
  cases t
  · rw [h0] at ht; exact Bool.false_ne_true ht
  · rw [h1] at ht; exact Bool.false_ne_true ht
  · rw [h2] at ht; exact Bool.false_ne_true ht
  · rw [h3] at ht; exact Bool.false_ne_true ht
  · rw [h4] at ht; exact Bool.false_ne_true ht
  · exact Bool.false_ne_true ht

theorem applyUpdate_some_inv (cfg : DetectorConfig) (now : Nat) (u : GameUpdate)
    (s s' : AgentState) (e : TrendEvent)
    (h : applyUpdate cfg now u s = (s', some e)) :
    detectEvent (lookupGame s.store u.id) u = some e.type ∧
      suppressed cfg.cooldownSeconds now s.ledger e.type (some u.id) = false ∧
      e.game_id = some u.id ∧ e.time = now ∧ e.eid = s.ledger.nextId ∧
      s'.store = upsertGame s.store (mergedOf (lookupGame s.store u.id) u) ∧
      s'.ledger = s.ledger.appendEvent cfg.capacity e := by
  simp only [applyUpdate] at h
  rcases hdet : detectEvent (lookupGame s.store u.id) u with _ | ty
  · rw [hdet] at h
    simp at h
  · rw [hdet] at h
    by_cases hsup : suppressed cfg.cooldownSeconds now s.ledger ty (some u.id) = true
    · simp [hsup] at h
    · rw [Bool.not_eq_true] at hsup
      simp only [hsup, Bool.false_eq_true, if_false, Prod.mk.injEq, Option.some.injEq] at h
      obtain ⟨hs', he⟩ := h
      subst he
      exact ⟨rfl, hsup, rfl, rfl, rfl, by rw [← hs'], by rw [← hs']⟩

theorem applyUpdate_emit (cfg : DetectorConfig) (now : Nat) (u : GameUpdate)
    (s : AgentState) (ty : EventType)
    (hdet : detectEvent (lookupGame s.store u.id) u = some ty)
    (hsup : suppressed cfg.cooldownSeconds now s.ledger ty (some u.id) = false) :
    (applyUpdate cfg now u s).2
      = some { eid := s.ledger.nextId, game_id := some u.id, type := ty,
               title := eventLabel ty, description := eventLabel ty, time := now } := by
  simp only [applyUpdate, hdet, hsup]
  simp

theorem applyUpdate_ledger_growth (cfg : DetectorConfig) (now : Nat) (u : GameUpdate)
    (s : AgentState) :
    (applyUpdate cfg now u s).1.ledger.events.length ≤ s.ledger.events.length + 1 := by
  simp only [applyUpdate]
  rcases hdet : detectEvent (lookupGame s.store u.id) u with _ | ty <;> simp [hdet]
  by_cases hsup : suppressed cfg.cooldownSeconds now s.ledger ty (some u.id) = true <;>
    simp [hsup, appendEvent_length]

/-! ## C1 -/

/-- C1: whenever more than one Change Detector rule fires on one update,
apply emits exactly one TrendEvent — the highest-priority applicable one
in the order [discount_started, price_drop, price_increase,
discount_ended, back_in_stock] — and the ledger grows by at most one
event; never two or more events for one update. -/
theorem tiebreak_single_event (prior : Option Game) (u : GameUpdate) (t1 t2 : EventType)
    (hne : t1 ≠ t2) (h1 : fires prior u t1 = true) (h2 : fires prior u t2 = true) :
    ∃ t, detectEvent prior u = some t ∧ fires prior u t = true ∧
      (∀ t', fires prior u t' = true → priorityRank t ≤ priorityRank t') ∧
      (∀ cfg now s e, lookupGame s.store u.id = prior →
        (applyUpdate cfg now u s).2 = some e → e.type = t) ∧
      (∀ cfg now s, lookupGame s.store u.id = prior →
        suppressed cfg.cooldownSeconds now s.ledger t (some u.id) = false →
        ∃ e, (applyUpdate cfg now u s).2 = some e ∧ e.type = t ∧ e.game_id = some u.id) ∧
      (∀ cfg now s, (applyUpdate cfg now u s).1.ledger.events.length
        ≤ s.ledger.events.length + 1) := by
  obtain ⟨t0, hdet, hf, hmin⟩ := detectEvent_spec prior u t1 h1
  refine ⟨t0, hdet, hf, hmin, ?_, ?_, fun cfg now s => applyUpdate_ledger_growth cfg now u s⟩
  · intro cfg now s e hl happ
    have hpair : applyUpdate cfg now u s = ((applyUpdate cfg now u s).1, some e) := by
      rw [← happ]
    obtain ⟨hdet', _, _, _, _, _, _⟩ :=
      applyUpdate_some_inv cfg now u s (applyUpdate cfg now u s).1 e hpair
    rw [hl, hdet] at hdet'
    exact (Option.some.injEq _ _ ▸ hdet').symm
  · intro cfg now s hl hsup
    refine ⟨_, applyUpdate_emit cfg now u s t0 (by rw [hl]; exact hdet) hsup, rfl, rfl⟩

/-- Witness for C1: on gW (tracked, no known price) the update uW
(introduces price 500 with discount 20) fires both discount_started and
back_in_stock; the detector picks discount_started. -/
theorem tiebreak_single_event_witness :
    ∃ t, detectEvent (some gW) uW = some t ∧ fires (some gW) uW t = true ∧
      (∀ t', fires (some gW) uW t' = true → priorityRank t ≤ priorityRank t') ∧
      (∀ cfg now s e, lookupGame s.store uW.id = some gW →
        (applyUpdate cfg now uW s).2 = some e → e.type = t) ∧
      (∀ cfg now s, lookupGame s.store uW.id = some gW →
        suppressed cfg.cooldownSeconds now s.ledger t (some uW.id) = false →
        ∃ e, (applyUpdate cfg now uW s).2 = some e ∧ e.type = t ∧ e.game_id = some uW.id) ∧
      (∀ cfg now s, (applyUpdate cfg now uW s).1.ledger.events.length
        ≤ s.ledger.events.length + 1) :=
  tiebreak_single_event (some gW) uW .discount_started .back_in_stock
    (by decide) (by decide) (by decide)

/-! ## C2 -/

theorem lookupGame_id (store : List Game) (i : String) (g : Game)
    (h : lookupGame store i = some g) : g.id = i := by
  have := List.find?_some h
  simpa using this

theorem lookupGame_upsert_self (store : List Game) (g : Game) :
    lookupGame (upsertGame store g) g.id = some g := by
  induction store with
  | nil => simp [upsertGame, lookupGame]
  | cons g0 rest ih =>
      by_cases h : (g0.id == g.id) = true
      · simp [upsertGame, h, lookupGame]
      · rw [Bool.not_eq_true] at h
        simpa [upsertGame, h, lookupGame] using ih

theorem mergedOf_lookup_id (s : AgentState) (u : GameUpdate) :
    (mergedOf (lookupGame s.store u.id) u).id = u.id := by
  rcases hl : lookupGame s.store u.id with _ | g
  · rfl
  · simpa [mergedOf, mergeGame] using lookupGame_id s.store u.id g hl

theorem detectEvent_fires (prior : Option Game) (u : GameUpdate) (ty : EventType)
    (h : detectEvent prior u = some ty) : fires prior u ty = true := by
  unfold detectEvent at h
  rcases hf : priorityOrder.filter (fires prior u) with _ | ⟨x, xs⟩
  · rw [hf] at h; simp at h
  · rw [hf] at h
    simp at h
    subst h
    have hx : x ∈ priorityOrder.filter (fires prior u) := by
      rw [hf]; exact List.mem_cons_self x xs
    exact (List.mem_filter.mp hx).2

theorem fires_merged (prior : Option Game) (u : GameUpdate) (ty : EventType)
    (h : fires (some (mergedOf prior u)) u ty = true) : ty = .discount_ended := by
  cases ty
  · exfalso
    cases prior <;> rcases hu : u.current_price with _ | c <;>
      simp [fires, mergedOf, mergeGame, gameOfUpdate, mergeOpt, hu] at h
  · exfalso
    cases prior <;> rcases hu : u.current_price with _ | c <;>
      simp [fires, mergedOf, mergeGame, gameOfUpdate, mergeOpt, hu] at h
  · exfalso
    cases prior <;> rcases hu : u.current_price with _ | c <;>
      simp [fires, mergedOf, mergeGame, gameOfUpdate, mergeOpt, hu] at h
  · rfl
  · exfalso
    cases prior <;> rcases hu : u.current_price with _ | c <;>
      simp [fires, mergedOf, mergeGame, gameOfUpdate, mergeOpt, hu] at h
  · exact absurd h (by simp [fires])

/-- C2 counterexample: the very same update applied twice in succession
within the cooldown window can append two events, because the second
apply can fire a different event type. On gX (price 1000, discount 10 on
record) the price-only update uX (price 980, discount field absent)
fires price_drop on the first apply and discount_ended on the second —
the merged prior still carries the discount while the update omits it —
and cross-type events are not deduplicated. -/
theorem applyTwice_counterexample :
    ((applyUpdate cfgD 0 uX sX).2).isSome = true ∧
      60 ≤ 0 + cfgD.cooldownSeconds ∧
      ((applyUpdate cfgD 60 uX (applyUpdate cfgD 0 uX sX).1).1).ledger.events.length = 2 := by
  decide

/-- C2 amended: within the cooldown window, re-applying the same update
never appends a second event of the same type — the second firing of the
same type for the same game id is suppressed — so at most one event per
type is appended; only an event of a different type (necessarily
discount_ended) can still be appended by the second apply. -/
theorem applyTwice_dedup (cfg : DetectorConfig) (u : GameUpdate) (s s1 s2 : AgentState)
    (e : TrendEvent) (r : Option TrendEvent) (t1 t2 : Nat)
    (hcap : 1 ≤ cfg.capacity)
    (h1 : applyUpdate cfg t1 u s = (s1, some e))
    (hwin : t2 ≤ t1 + cfg.cooldownSeconds)
    (h2 : applyUpdate cfg t2 u s1 = (s2, r)) :
    r = none ∨ ∃ e2, r = some e2 ∧ e2.type = .discount_ended ∧
      e.type ≠ .discount_ended ∧ e2.type ≠ e.type := by
  obtain ⟨hdet1, hsup1, hgid, htime, _, hstore1, hledger1⟩ :=
    applyUpdate_some_inv cfg t1 u s s1 e h1
  rcases r with _ | e2
  · exact Or.inl rfl
  right
  obtain ⟨hdet2, hsup2, _, _, _, _, _⟩ := applyUpdate_some_inv cfg t2 u s1 s2 e2 h2
  have hprior1 : lookupGame s1.store u.id = some (mergedOf (lookupGame s.store u.id) u) := by
    rw [hstore1]
    have hid := mergedOf_lookup_id s u
    nth_rewrite 2 [← hid]
    exact lookupGame_upsert_self s.store (mergedOf (lookupGame s.store u.id) u)
  rw [hprior1] at hdet2
  have hf2 : fires (some (mergedOf (lookupGame s.store u.id) u)) u e2.type = true :=
    detectEvent_fires _ u e2.type hdet2
  have hty2 : e2.type = .discount_ended := fires_merged _ _ _ hf2
  have hty1 : e.type ≠ .discount_ended := by
    intro hcontra
    have hmem : e ∈ s1.ledger.events := by
      rw [hledger1]; exact mem_appendEvent cfg.capacity s.ledger e hcap
    have hsupp : suppressed cfg.cooldownSeconds t2 s1.ledger e2.type (some u.id) = true := by
      rw [suppressed, List.any_eq_true]
      exact ⟨e, hmem, by simp [hty2, hcontra, hgid, htime, hwin]⟩
    simp [hsup2] at hsupp
  exact ⟨e2, rfl, hty2, hty1, by rw [hty2]; exact fun hh => hty1 hh.symm⟩

/-- Witness for the amended C2, at the concrete double-apply of uX. -/
theorem applyTwice_dedup_witness :
    (applyUpdate cfgD 60 uX (applyUpdate cfgD 0 uX sX).1).2 = none ∨
      ∃ e2, (applyUpdate cfgD 60 uX (applyUpdate cfgD 0 uX sX).1).2 = some e2 ∧
        e2.type = .discount_ended ∧ eX.type ≠ .discount_ended ∧ e2.type ≠ eX.type :=
  applyTwice_dedup cfgD uX sX (applyUpdate cfgD 0 uX sX).1
    (applyUpdate cfgD 60 uX (applyUpdate cfgD 0 uX sX).1).1 eX
    (applyUpdate cfgD 60 uX (applyUpdate cfgD 0 uX sX).1).2 0 60
    (by decide) (by decide) (by decide) (by decide)

/-! ## C8 -/

theorem applyUpdate_store_eq (cfg : DetectorConfig) (now : Nat) (u : GameUpdate)
    (s : AgentState) :
    (applyUpdate cfg now u s).1.store
      = upsertGame s.store (mergedOf (lookupGame s.store u.id) u) := by
  simp only [applyUpdate]
  rcases hdet : detectEvent (lookupGame s.store u.id) u with _ | ty <;> simp [hdet]
  by_cases hsup : suppressed cfg.cooldownSeconds now s.ledger ty (some u.id) = true <;>
    simp [hsup]

theorem mem_upsertGame_ids (store : List Game) (g : Game) (x : String)
    (hx : x ∈ (upsertGame store g).map Game.id) :
    x ∈ store.map Game.id ∨ x = g.id := by
  induction store with
  | nil =>
      simp [upsertGame] at hx
      exact Or.inr hx
  | cons g0 rest ih =>
      by_cases h : (g0.id == g.id) = true
      · simp only [upsertGame] at hx
        rw [if_pos h] at hx
        simp only [List.map_cons, List.mem_cons] at hx ⊢
        rcases hx with hx | hx
        · exact Or.inr hx
        · exact Or.inl (Or.inr hx)
      · simp only [upsertGame] at hx
        rw [if_neg h] at hx
        simp only [List.map_cons, List.mem_cons] at hx ⊢
        rcases hx with hx | hx
        · exact Or.inl (Or.inl hx)
        · rcases ih hx with h' | h'
          · exact Or.inl (Or.inr h')
          · exact Or.inr h'

theorem upsertGame_nodup (store : List Game) (g : Game)
    (h : (store.map Game.id).Nodup) : ((upsertGame store g).map Game.id).Nodup := by
  induction store with
  | nil => simp [upsertGame]
  | cons g0 rest ih =>
      simp only [List.map_cons, List.nodup_cons] at h
      by_cases hb : (g0.id == g.id) = true
      · have hg : g0.id = g.id := by simpa using hb
        simp only [upsertGame]
        rw [if_pos hb]
        simp only [List.map_cons, List.nodup_cons]
        exact ⟨hg ▸ h.1, h.2⟩
      · have hg : g0.id ≠ g.id := by simpa using hb
        simp only [upsertGame]
        rw [if_neg hb]
        simp only [List.map_cons, List.nodup_cons]
        refine ⟨?_, ih h.2⟩
        intro hmem
        rcases mem_upsertGame_ids rest g g0.id hmem with h' | h'
        · exact h.1 h'
        · exact hg h'

theorem clearAbsent_ids (input : List GameUpdate) (store : List Game) :
    (clearAbsent input store).map Game.id = store.map Game.id := by
  simp only [clearAbsent, List.map_map]
  congr 1
  funext g
  by_cases h : input.any (fun u => u.id == g.id) = true <;> simp [Function.comp, h]

theorem foldl_applyUpdate_nodup (cfg : DetectorConfig) (now : Nat)
    (input : List GameUpdate) (s : AgentState)
    (h : (s.store.map Game.id).Nodup) :
    ((input.foldl (fun st u => (applyUpdate cfg now u st).1) s).store.map Game.id).Nodup := by
  induction input generalizing s with
  | nil => exact h
  | cons u rest ih =>
      simp only [List.foldl_cons]
      apply ih
      rw [applyUpdate_store_eq]
      exact upsertGame_nodup _ _ h

/-- C8 counterexample: the watchlist add path does not preserve id
uniqueness — adding the title "x" while a game with id "x" is already in
the list appends a second record with the same id. -/
theorem handleAdd_duplicate_id :
    ([gX].map Game.id).Nodup ∧
      ¬ ((handleAdd "x" "" none (fun _ => 0) [gX]).map Game.id).Nodup := by
  decide

/-- C8 amended: the spec-modelled store operations — the Watchlist
Coordinator's replaceAll and the Belief Store's upsert — do preserve the
id-uniqueness invariant, and the frontend watchlist add preserves it only
when the added title's normalized id is not already present; an add whose
normalized id already exists appends a duplicate (see the
counterexample). -/
theorem id_unique_invariant :
    (∀ cfg now input s, (s.store.map Game.id).Nodup →
      ((replaceAll cfg now input s).store.map Game.id).Nodup) ∧
    (∀ store g, (store.map Game.id).Nodup → ((upsertGame store g).map Game.id).Nodup) ∧
    (∀ title price steam parseNum games, (games.map Game.id).Nodup →
      normalizeId title ∉ games.map Game.id →
      ((handleAdd title price steam parseNum games).map Game.id).Nodup) := by
  refine ⟨fun cfg now input s h => ?_, upsertGame_nodup, fun title price steam parseNum games h hfresh => ?_⟩
  · unfold replaceAll
    apply foldl_applyUpdate_nodup
    simpa [clearAbsent_ids] using h
  · unfold handleAdd
    by_cases ht : (jsTrim title == "") = true <;> simp [ht, h]
    simp [List.nodup_append, h, hfresh, mkNewGame]

/-- Witness for the amended C8 at concrete inputs. -/
theorem id_unique_invariant_witness :
    ((replaceAll cfgD 0 [uX] sX).store.map Game.id).Nodup ∧
      ((upsertGame [gX] gP).map Game.id).Nodup ∧
      ((handleAdd "b" "" none (fun _ => 0) [gX]).map Game.id).Nodup :=
  ⟨id_unique_invariant.1 cfgD 0 [uX] sX (by decide),
    id_unique_invariant.2.1 [gX] gP (by decide),
    id_unique_invariant.2.2 "b" "" none (fun _ => 0) [gX] (by decide) (by decide)⟩

end GamingAssistant
